import Mathlib

set_option maxRecDepth 100000

/-!
Shallow embedding of the `cli-node-boilerplate` project generator (src/cli.js and
the unnamed variants src/unnamed/part_000, src/unnamed/part_001), together with
proofs settling the frozen claims about its specification.

Strings coming from the JavaScript template literals are reproduced byte for byte;
literal braces are written with the escapes \x7b and \x7d and apostrophes with \x27.
-/

/-- Framework choice of the ProjectRequest: the closed enumeration offered by the
framework list prompt (src/cli.js line 31). -/
inductive Framework where
  | express
  | fastify
  deriving DecidableEq

/-- Package-manager choice of the ProjectRequest: the closed enumeration offered by the
package-manager list prompt (src/cli.js line 24). -/
inductive PackageManager where
  | npm
  | yarn
  | pnpm
  deriving DecidableEq

/-- String answer corresponding to a package-manager choice, as interpolated into the
generated hook and lint-staged commands. -/
def PackageManager.toString : PackageManager → String
  | .npm => "npm"
  | .yarn => "yarn"
  | .pnpm => "pnpm"

/-- Model of the JavaScript `String.prototype.trim()`: drop whitespace characters from
both ends (used at src/cli.js lines 14 and 50). -/
def jsTrim (s : String) : String :=
  String.mk (((s.data.dropWhile Char.isWhitespace).reverse.dropWhile Char.isWhitespace).reverse)

/-- Boolean test that `pat` is a prefix of `l` (character lists). -/
def listHasPrefixOf : List Char → List Char → Bool
  | [], _ => true
  | _ :: _, [] => false
  | p :: ps, c :: cs => p == c && listHasPrefixOf ps cs

/-- Boolean test that the pattern occurs as a contiguous substring of the text. -/
def strContainsSub (pat : List Char) : List Char → Bool
  | [] => pat.isEmpty
  | c :: cs => listHasPrefixOf pat (c :: cs) || strContainsSub pat cs

/-- Substring occurrence test on strings, used to state properties of the generated
source templates. -/
def strContains (s pat : String) : Bool :=
  strContainsSub pat.data s.data

/-- Server entry-point source generated for each framework choice
(src/cli.js lines 79-107): the express branch registers a root route and a synchronous
listen callback; the fastify branch registers the `/test` route and a promise-based
(asynchronous) listen. -/
def serverConfig : Framework → String
  | .express =>
    "import express from \x27express\x27;\n    \n    const app = express();\n    \n    app.get(\x27/\x27, (req, res) => \x7b\n      res.send(\x27Hello World!\x27);\n    \x7d);\n    \n    app.listen(3000, () => \x7b\n      console.log(\x27Server is running on port 3000\x27);\n    \x7d);\n    "
  | .fastify =>
    "import fastify from \x27fastify\x27;\n    const app = fastify();\n    \n    app.get(\x27/test\x27, async (request, reply) => \x7b\n        return \x7b message: \x27Hello World\x27 \x7d;\n      \x7d);      \n    \n    app.listen(\x7b\n      port: 3000,\n    \x7d).then(() => \x7b\n      console.log(\x27Server is running on port 3000\x27);\n    \x7d);\n    "

/-- Test-stub source written next to the server file (src/cli.js lines 113-116). -/
def testServerConfig : String :=
  "\n\t\t// Test file for the server\n    // Implement your tests here\n    "

/-- Claim C5: for each framework choice the generated server source binds its listener to
the fixed port 3000 and registers the framework-appropriate route (root route with a
static greeting for express; the distinct `/test` route returning a structured greeting
payload, with promise-based listen, for fastify), and neither generated output contains
the other framework's import statement. -/
theorem c5_server_templates :
    strContains (serverConfig .express) "app.listen(3000" = true
    ∧ strContains (serverConfig .express) "app.get(\x27/\x27" = true
    ∧ strContains (serverConfig .express) "res.send(\x27Hello World!\x27)" = true
    ∧ strContains (serverConfig .express) "import express from \x27express\x27" = true
    ∧ strContains (serverConfig .express) "import fastify" = false
    ∧ strContains (serverConfig .fastify) "port: 3000" = true
    ∧ strContains (serverConfig .fastify) "app.listen(" = true
    ∧ strContains (serverConfig .fastify) "app.get(\x27/test\x27" = true
    ∧ strContains (serverConfig .fastify) "return \x7b message: \x27Hello World\x27 \x7d" = true
    ∧ strContains (serverConfig .fastify) "async" = true
    ∧ strContains (serverConfig .fastify) ".then(" = true
    ∧ strContains (serverConfig .fastify) "import fastify from \x27fastify\x27" = true
    ∧ strContains (serverConfig .fastify) "import express" = false := by
  decide

/-- Command string built by `getLatestVersion` in src/cli.js (line 45): the package
manager in the command is the literal `npm`. -/
def getLatestVersionCmd (packageName : String) : String :=
  "npm show " ++ packageName ++ " version"

/-- Command string built by `getLatestVersion` in src/unnamed/part_000 (line 55): the
command interpolates the chosen package manager. -/
def getLatestVersionCmdV2 (packageName packageManager : String) : String :=
  packageManager ++ " show " ++ packageName ++ " version"

/-- The command the cli.js resolver issues for one package as a function of the chosen
manager: `fetchLatestVersions` (src/cli.js line 61) passes the manager along, but
`getLatestVersion` (line 43) declares only the package-name parameter and interpolates
the literal `npm`, so the manager argument is ignored. -/
def issuedQueryCmd (packageManager packageName : String) : String :=
  getLatestVersionCmd packageName

/-- Resolved version on a successful query: the process standard output trimmed of
surrounding whitespace (src/cli.js line 50, src/unnamed/part_000 line 60). -/
def resolveStdout (stdout : String) : String :=
  jsTrim stdout

/-- Spec-side definition of the query command, following the spec's words: the show-version
query is executed against the chosen manager's registry-query facility. -/
def specQueryCmd (packageManager packageName : String) : String :=
  packageManager ++ " show " ++ packageName ++ " version"

/-- Claim C1 (counterexample): the claim that the resolver always queries through the
chosen package manager is false for src/cli.js: with chosen manager `pnpm` the command
issued for `typescript` is not the pnpm query - it is the fixed npm query. -/
theorem c1_counterexample :
    issuedQueryCmd "pnpm" "typescript" ≠ specQueryCmd "pnpm" "typescript"
    ∧ issuedQueryCmd "pnpm" "typescript" = "npm show typescript version" := by
  decide

/-- Claim C1 (amended): the part_000 resolver issues the show-version query through the
chosen package manager, but the cli.js resolver always issues the fixed `npm` query
regardless of the chosen manager; in both variants the resolved version string is the
query's standard output trimmed of surrounding whitespace. -/
theorem c1_resolver_query_command (packageManager packageName stdout : String) :
    getLatestVersionCmdV2 packageName packageManager = specQueryCmd packageManager packageName
    ∧ issuedQueryCmd packageManager packageName = specQueryCmd "npm" packageName
    ∧ resolveStdout stdout = jsTrim stdout
    ∧ resolveStdout "  1.2.3\n" = "1.2.3" := by
  refine ⟨rfl, rfl, rfl, ?_⟩
  decide

/-- Character-list splitting on a separator predicate: every matching character ends a
segment, so consecutive separators and a trailing separator produce empty segments,
exactly like the JavaScript `String.prototype.split` with a one-character separator. -/
def splitOnPred (p : Char → Bool) : List Char → List (List Char)
  | [] => [[]]
  | c :: cs =>
    if p c then [] :: splitOnPred p cs
    else
      match splitOnPred p cs with
      | [] => [[c]]
      | l :: ls => (c :: l) :: ls

/-- Model of the JavaScript `stdout.split("\n")` (src/unnamed/part_000 line 239). -/
def splitLines (s : String) : List String :=
  (splitOnPred (fun c => c == '\n') s.data).map String.mk

/-- Model of the JavaScript `s.split(/\s+/)` as applied at src/unnamed/part_000 line 244:
the receiver there is always a trimmed line, for which the regex split collapses
whitespace runs and yields no empty segments, except that the empty string yields a
singleton list holding the empty string. -/
def jsSplitWs (s : String) : List String :=
  if s = "" then [""]
  else ((splitOnPred Char.isWhitespace s.data).filter (fun w => !w.isEmpty)).map String.mk

/-- One row of the outdated-package table as destructured at src/unnamed/part_000
lines 242-245; the JavaScript destructuring leaves missing positions `undefined`,
modelled as `none`. -/
structure OutdatedEntry where
  packageName : Option String
  current : Option String
  wanted : Option String
  latest : Option String
  location : Option String
  deriving DecidableEq

/-- Builds one outdated-table entry from the whitespace-split fields of a line
(src/unnamed/part_000 lines 242-245). -/
def mkOutdatedEntry (fields : List String) : OutdatedEntry :=
  { packageName := fields[0]?
    current := fields[1]?
    wanted := fields[2]?
    latest := fields[3]?
    location := fields[4]? }

/-- Parser of the `outdated` command's standard output (src/unnamed/part_000
lines 238-246): split into lines, skip the header line, and turn every remaining line -
empty lines included - into an entry of its trimmed, whitespace-split fields. -/
def parseOutdated (stdout : String) : List OutdatedEntry :=
  ((splitLines stdout).drop 1).map (fun line => mkOutdatedEntry (jsSplitWs (jsTrim line)))

/-- Condition under which the update command is invoked (src/unnamed/part_000
line 248): the parsed list is non-empty. -/
def updateInvoked (stdout : String) : Bool :=
  decide ((parseOutdated stdout).length > 0)

/-- Spec-side notion of an outdated entry actually being found: some post-header line
has content after trimming. -/
def hasOutdatedEntry (stdout : String) : Bool :=
  ((splitLines stdout).drop 1).any (fun line => !(jsTrim line == ""))

/-- Claim C2 (counterexample): the update command is not invoked if and only if an
outdated entry was found - an `outdated` output consisting of the header line and a
trailing newline contains no outdated entry, yet the code invokes the update command,
because the empty string after the final newline counts as a parsed row. -/
theorem c2_counterexample :
    updateInvoked "Package  Current  Wanted  Latest  Location\n" = true
    ∧ hasOutdatedEntry "Package  Current  Wanted  Latest  Location\n" = false := by
  decide

/-- Claim C2 (amended): the outdated-check parses the command's standard output by
skipping exactly the header line and splitting each remaining line on whitespace into
the five fields, and the update command is invoked if and only if at least one line -
empty lines after the final newline included - remains after the header; in particular
whenever a genuine outdated entry is present the update command is invoked. -/
theorem c2_outdated_parse_and_update (stdout : String) :
    (updateInvoked stdout = true ↔ (splitLines stdout).drop 1 ≠ [])
    ∧ (hasOutdatedEntry stdout = true → updateInvoked stdout = true)
    ∧ (parseOutdated stdout).length = ((splitLines stdout).drop 1).length
    ∧ (∀ (i : Nat) (line : String), ((splitLines stdout).drop 1)[i]? = some line →
        (parseOutdated stdout)[i]? = some (mkOutdatedEntry (jsSplitWs (jsTrim line)))) := by
  refine ⟨?_, ?_, ?_, ?_⟩
  · unfold updateInvoked parseOutdated
    rw [decide_eq_true_iff, List.length_map]
    exact List.length_pos
  · intro h
    unfold hasOutdatedEntry at h
    rw [List.any_eq_true] at h
    obtain ⟨line, hmem, -⟩ := h
    unfold updateInvoked parseOutdated
    rw [decide_eq_true_iff, List.length_map]
    exact List.length_pos.mpr (List.ne_nil_of_mem hmem)
  · unfold parseOutdated
    rw [List.length_map]
  · intro i line h
    unfold parseOutdated
    rw [List.getElem?_map, h]
    rfl

/-- Witness for claim C2's amended theorem: on an output with a header line and one
genuine outdated row, the update command is invoked and the row parses into its five
fields. -/
theorem c2_outdated_parse_and_update_witness :
    updateInvoked "Package Current Wanted Latest Location\nfoo 1.0.0 1.1.0 2.0.0 node_modules/foo\n" = true
    ∧ (parseOutdated "Package Current Wanted Latest Location\nfoo 1.0.0 1.1.0 2.0.0 node_modules/foo\n")[0]?
      = some (mkOutdatedEntry ["foo", "1.0.0", "1.1.0", "2.0.0", "node_modules/foo"]) := by
  constructor
  · exact (c2_outdated_parse_and_update
      "Package Current Wanted Latest Location\nfoo 1.0.0 1.1.0 2.0.0 node_modules/foo\n").2.1
      (by decide)
  · have h := (c2_outdated_parse_and_update
      "Package Current Wanted Latest Location\nfoo 1.0.0 1.1.0 2.0.0 node_modules/foo\n").2.2.2
      0 "foo 1.0.0 1.1.0 2.0.0 node_modules/foo" (by decide)
    rw [h]
    decide

/-- Lookup of a key in an association list, modelling JavaScript object property access
(`obj[key]`, `undefined` when absent). -/
def lookupKey {β : Type} (name : String) : List (String × β) → Option β
  | [] => none
  | (k, v) :: rest => if k = name then some v else lookupKey name rest

/-- Assignment of a key in an association list, modelling JavaScript object property
assignment: the first entry with the key is replaced in place, a fresh key is appended
at the end, preserving insertion order. -/
def setAssoc {β : Type} : List (String × β) → String → β → List (String × β)
  | [], k, v => [(k, v)]
  | (k', v') :: rest, k, v =>
    if k' = k then (k, v) :: rest else (k', v') :: setAssoc rest k v

theorem lookupKey_setAssoc {β : Type} (l : List (String × β)) (k p : String) (v : β) :
    lookupKey p (setAssoc l k v) = if k = p then some v else lookupKey p l := by
  induction l with
  | nil => simp [setAssoc, lookupKey]
  | cons hd tl ih =>
    obtain ⟨k', v'⟩ := hd
    by_cases hk : k' = k
    · subst hk
      by_cases hp : k' = p <;> simp [setAssoc, lookupKey, hp]
    · by_cases hp : k' = p
      · subst hp
        have : ¬ k = k' := fun h => hk h.symm
        simp [setAssoc, lookupKey, hk, this]
      · simp [setAssoc, lookupKey, hk, hp, ih]

theorem lookupKey_some_mem {β : Type} {name : String} {v : β} :
    ∀ {l : List (String × β)}, lookupKey name l = some v → (name, v) ∈ l := by
  intro l
  induction l with
  | nil => intro h; simp [lookupKey] at h
  | cons hd tl ih =>
    obtain ⟨k, w⟩ := hd
    intro h
    by_cases hk : k = name
    · subst hk
      simp [lookupKey] at h
      simp [h]
    · simp [lookupKey, hk] at h
      exact List.mem_cons_of_mem _ (ih h)

/-- Model of the JavaScript `a || b` where `a` is a possibly-absent string: `undefined`
and the empty string are the falsy string cases (src/cli.js line 272). -/
def jsOrString : Option String → String → String
  | some s, d => if s = "" then d else s
  | none, d => d

/-- Statically pinned runtime dependencies common to both frameworks
(src/cli.js lines 178-181). -/
def baseDependencies : List (String × String) :=
  [("zod", "^3.22.4"), ("eslint-config-prettier", "^9.1.0")]

/-- Framework-conditional runtime dependencies added to the manifest
(src/cli.js lines 201-210). -/
def frameworkDependencies : Framework → List (String × String)
  | .express => [("@types/express", "^4.17.21"), ("express", "^4.19.2")]
  | .fastify =>
    [("@fastify/cors", "^9.0.1"), ("@fastify/swagger", "^8.14.0"),
     ("@fastify/swagger-ui", "^3.0.0"), ("fastify-type-provider-zod", "^1.1.9"),
     ("fastify", "^4.26.2")]

/-- Declared runtime dependencies with their pinned defaults: the static entries plus the
framework-conditional entries, in the insertion order of src/cli.js. -/
def dependenciesFor (fw : Framework) : List (String × String) :=
  baseDependencies ++ frameworkDependencies fw

/-- Declared development dependencies with their pinned defaults
(src/cli.js lines 183-199). -/
def devDependenciesList : List (String × String) :=
  [("@types/node", "^20.10.5"), ("tsup", "^8.0.2"), ("tsx", "^4.7.2"),
   ("typescript", "^5.4.5"), ("@eslint/js", "^9.0.0"), ("eslint-config-prettier", "^9.1.0"),
   ("eslint", "^9.0.0"), ("@typescript-eslint/parser", "^7.7.0"),
   ("@typescript-eslint/eslint-plugin", "^7.7.0"), ("prettier", "^3.2.5"),
   ("typescript-eslint", "^7.5.0"), ("globals", "^15.0.0"), ("vitest", "^1.5.0"),
   ("husky", "^9.0.11"), ("lint-staged", "^15.2.2")]

/-- Package names whose latest version is queried (src/cli.js lines 212-237), including
the duplicated entries of the source list and the framework-conditional additions. -/
def packagesToCheck (fw : Framework) : List String :=
  ["zod", "eslint-config-prettier", "prettier", "@types/node", "tsup", "tsx", "typescript",
   "@eslint/js", "eslint-config-prettier", "eslint", "@typescript-eslint/parser",
   "@typescript-eslint/eslint-plugin", "prettier", "typescript-eslint", "globals",
   "vitest", "husky", "lint-staged"]
  ++ (match fw with
      | .express => ["express", "@types/express"]
      | .fastify =>
        ["fastify", "@fastify/cors", "@fastify/swagger", "@fastify/swagger-ui",
         "fastify-type-provider-zod"])

/-- Dependency map written into the manifest (src/cli.js lines 269-280): each declared
name maps to the resolved latest version when present and truthy, and otherwise to the
pinned default from the declaration list. -/
def manifestDeps (latestVersions : String → Option String)
    (deps : List (String × String)) : List (String × String) :=
  deps.map (fun kv => (kv.1, jsOrString (latestVersions kv.1) kv.2))

theorem lookupKey_manifestDeps (latestVersions : String → Option String)
    (deps : List (String × String)) (name : String) :
    lookupKey name (manifestDeps latestVersions deps)
      = (lookupKey name deps).map (fun d => jsOrString (latestVersions name) d) := by
  induction deps with
  | nil => simp [manifestDeps, lookupKey]
  | cons hd tl ih =>
    obtain ⟨k, v⟩ := hd
    by_cases hk : k = name
    · subst hk
      simp [manifestDeps, lookupKey]
    · simp [manifestDeps, lookupKey, hk] at ih ⊢
      exact ih

/-- The generated manifest (src/cli.js lines 241-281) as a structured value; `writeJson`
serialises it with stable key order and two-space indentation. -/
structure PackageJson where
  name : String
  version : String
  description : String
  main : String
  scripts : List (String × String)
  huskyHooks : List (String × String)
  lintStaged : List (String × List String)
  keywords : List String
  author : String
  license : String
  dependencies : List (String × String)
  devDependencies : List (String × String)
  deriving DecidableEq

/-- Manifest value assembled by `createProject` (src/cli.js lines 241-281) from the
project name, the chosen package manager, the framework choice and the resolved
versions. -/
def packageJson (projectName : String) (pm : PackageManager) (fw : Framework)
    (latestVersions : String → Option String) : PackageJson :=
  { name := projectName
    version := "1.0.0"
    description := ""
    main := "server.ts"
    scripts :=
      [("start", "tsx src/server.ts"), ("build", "tsup src"),
       ("start:dev", "tsx watch src/server.ts"), ("husky:prepare", "npx husky init"),
       ("test", "vitest"), ("test:lint", "vitest run")]
    huskyHooks := [("pre-commit", "lint-staged")]
    lintStaged :=
      [("*.\x7bjs,jsx,ts,tsx\x7d",
        [pm.toString ++ " eslint --fix",
         pm.toString ++ " prettier --write \"src/**/*.\x7bts,tsx\x7d\"",
         pm.toString ++ " test:lint --passWithNoTests"])]
    keywords := []
    author := ""
    license := "ISC"
    dependencies := manifestDeps latestVersions (dependenciesFor fw)
    devDependencies := manifestDeps latestVersions devDependenciesList }

/-- Claim C3: a declared dependency name absent from the resolver's result mapping keeps
its statically pinned default in the manifest's dependency maps, and that default is
never the empty string. -/
theorem c3_pinned_default_fallback (fw : Framework) (latestVersions : String → Option String)
    (name defv : String) (hmiss : latestVersions name = none) :
    (lookupKey name (dependenciesFor fw) = some defv →
       lookupKey name (manifestDeps latestVersions (dependenciesFor fw)) = some defv
       ∧ defv ≠ "")
    ∧ (lookupKey name devDependenciesList = some defv →
       lookupKey name (manifestDeps latestVersions devDependenciesList) = some defv
       ∧ defv ≠ "") := by
  constructor
  · intro h
    have hne : ∀ kv ∈ dependenciesFor fw, kv.2 ≠ "" := by cases fw <;> decide
    refine ⟨?_, hne _ (lookupKey_some_mem h)⟩
    rw [lookupKey_manifestDeps, h, hmiss]
    rfl
  · intro h
    have hne : ∀ kv ∈ devDependenciesList, kv.2 ≠ "" := by decide
    refine ⟨?_, hne _ (lookupKey_some_mem h)⟩
    rw [lookupKey_manifestDeps, h, hmiss]
    rfl

/-- Witness for claim C3: with a resolver mapping that resolved nothing, the manifest
pins `fastify` to its static default. -/
theorem c3_pinned_default_fallback_witness :
    lookupKey "fastify" (manifestDeps (fun _ => none) (dependenciesFor .fastify))
      = some "^4.26.2"
    ∧ ("^4.26.2" : String) ≠ "" :=
  (c3_pinned_default_fallback .fastify (fun _ => none) "fastify" "^4.26.2" rfl).1 (by decide)

/-- Claim C4: choosing fastify adds the fastify package and its companion plugin packages
(cross-origin support, API-schema and documentation generation, schema-validation
integration) to the declared dependencies, choosing express adds the express package and
its type-definitions entry, and for project name `demo` with package manager `pnpm` and
framework `fastify` the manifest's dependencies map contains an entry for `fastify`. -/
theorem c4_framework_dependency_entries (latestVersions : String → Option String) :
    lookupKey "fastify" (dependenciesFor .fastify) = some "^4.26.2"
    ∧ lookupKey "@fastify/cors" (dependenciesFor .fastify) = some "^9.0.1"
    ∧ lookupKey "@fastify/swagger" (dependenciesFor .fastify) = some "^8.14.0"
    ∧ lookupKey "@fastify/swagger-ui" (dependenciesFor .fastify) = some "^3.0.0"
    ∧ lookupKey "fastify-type-provider-zod" (dependenciesFor .fastify) = some "^1.1.9"
    ∧ lookupKey "express" (dependenciesFor .express) = some "^4.19.2"
    ∧ lookupKey "@types/express" (dependenciesFor .express) = some "^4.17.21"
    ∧ (lookupKey "fastify"
        (packageJson "demo" PackageManager.pnpm Framework.fastify latestVersions).dependencies).isSome
      = true := by
  refine ⟨by decide, by decide, by decide, by decide, by decide, by decide, by decide, ?_⟩
  show (lookupKey "fastify" (manifestDeps latestVersions (dependenciesFor .fastify))).isSome = true
  rw [lookupKey_manifestDeps]
  have h : lookupKey "fastify" (dependenciesFor .fastify) = some "^4.26.2" := by decide
  rw [h]
  rfl

/-- Loop body of `fetchLatestVersions` (src/cli.js lines 59-66, src/unnamed/part_000
lines 275-282): the packages are queried sequentially in list order; a successful query
stores the resolved version under the package name, a failing query leaves the mapping
unchanged and the loop continues with the remaining packages. The external
`getLatestVersion` call is abstracted as the oracle `query`. -/
def fetchVersions (query : String → Except String String) :
    List String → List (String × String) → List (String × String)
  | [], versions => versions
  | p :: rest, versions =>
    match query p with
    | .ok v => fetchVersions query rest (setAssoc versions p v)
    | .error _ => fetchVersions query rest versions

/-- Result mapping of `fetchLatestVersions`, starting from the empty object
(src/cli.js line 56). -/
def fetchLatestVersions (packages : List String)
    (query : String → Except String String) : List (String × String) :=
  fetchVersions query packages []

/-- Console message logged when the version query for one package fails
(src/cli.js line 64). -/
def fetchErrorLog (packageName err : String) : String :=
  "Error fetching latest version for " ++ packageName ++ ": " ++ err

/-- Error log lines produced by the `fetchLatestVersions` loop, in list order: one line
per failing package (src/cli.js lines 63-65). -/
def fetchLogs (query : String → Except String String) (packages : List String) :
    List String :=
  packages.filterMap (fun p =>
    match query p with
    | .ok _ => none
    | .error e => some (fetchErrorLog p e))

theorem lookupKey_fetchVersions (query : String → Except String String) :
    ∀ (packages : List String) (acc : List (String × String)) (q : String),
      lookupKey q (fetchVersions query packages acc)
        = match query q with
          | .ok v => if q ∈ packages then some v else lookupKey q acc
          | .error _ => lookupKey q acc := by
  intro packages
  induction packages with
  | nil =>
    intro acc q
    cases hq : query q <;> simp [fetchVersions]
  | cons p rest ih =>
    intro acc q
    cases hp : query p with
    | ok w =>
      rw [fetchVersions, hp]
      rw [ih (setAssoc acc p w) q]
      cases hq : query q with
      | ok v =>
        by_cases hqr : q ∈ rest
        · simp [hqr]
        · rw [lookupKey_setAssoc]
          by_cases hpq : p = q
          · subst hpq
            rw [hp] at hq
            injection hq with hq
            simp [hqr, hq]
          · simp [hpq, hqr, Ne.symm hpq]
      | error e =>
        rw [lookupKey_setAssoc]
        by_cases hpq : p = q
        · subst hpq
          rw [hp] at hq
          simp at hq
        · rw [if_neg hpq]
    | error e =>
      rw [fetchVersions, hp]
      rw [ih acc q]
      cases hq : query q with
      | ok v =>
        by_cases hqr : q ∈ rest
        · simp [hqr]
        · by_cases hpq : p = q
          · subst hpq
            rw [hp] at hq
            simp at hq
          · simp [hqr, Ne.symm hpq]
      | error e2 => rfl

/-- Claim C9: when the version query for one declared package fails, the resolver logs
the failure, omits that package from the result mapping, and still resolves every
successfully queried package of the list; a single package's failure never aborts the
whole run. -/
theorem c9_failure_isolated (packages : List String)
    (query : String → Except String String) (p e : String)
    (hp : p ∈ packages) (herr : query p = .error e) :
    lookupKey p (fetchLatestVersions packages query) = none
    ∧ fetchErrorLog p e ∈ fetchLogs query packages
    ∧ (∀ q v, q ∈ packages → query q = .ok v →
        lookupKey q (fetchLatestVersions packages query) = some v) := by
  refine ⟨?_, ?_, ?_⟩
  · rw [fetchLatestVersions, lookupKey_fetchVersions, herr]
    rfl
  · rw [fetchLogs, List.mem_filterMap]
    exact ⟨p, hp, by rw [herr]⟩
  · intro q v hq hok
    rw [fetchLatestVersions, lookupKey_fetchVersions, hok]
    simp [hq]

/-- Witness for claim C9: with a query failing on `typescript` and succeeding on `zod`,
the mapping omits `typescript`, records the failure log, and still resolves `zod`. -/
theorem c9_failure_isolated_witness :
    lookupKey "typescript"
      (fetchLatestVersions ["typescript", "zod"]
        (fun n => if n = "typescript" then .error "boom" else .ok "3.22.4")) = none
    ∧ fetchErrorLog "typescript" "boom"
      ∈ fetchLogs (fun n => if n = "typescript" then .error "boom" else .ok "3.22.4")
        ["typescript", "zod"]
    ∧ lookupKey "zod"
      (fetchLatestVersions ["typescript", "zod"]
        (fun n => if n = "typescript" then .error "boom" else .ok "3.22.4")) = some "3.22.4" := by
  have h := c9_failure_isolated ["typescript", "zod"]
    (fun n => if n = "typescript" then .error "boom" else .ok "3.22.4")
    "typescript" "boom" (by decide) (by simp)
  exact ⟨h.1, h.2.1, h.2.2 "zod" "3.22.4" (by decide) (by simp)⟩

/-- Result of an inquirer validate callback: `true`, or a message string shown to the
operator before re-asking. -/
inductive ValidateResult where
  | accepted : ValidateResult
  | rejected : String → ValidateResult
  deriving DecidableEq

/-- Validate callback of the project-name question (src/cli.js lines 13-18): an input
that is empty after trimming is rejected with a message, anything else is accepted. -/
def validateProjectName (input : String) : ValidateResult :=
  if jsTrim input = "" then .rejected "Please enter a project name." else .accepted

/-- Choices of the package-manager list question (src/cli.js line 24). -/
def packageManagerChoices : List String :=
  ["npm", "yarn", "pnpm"]

/-- Choices of the framework list question (src/cli.js line 31). -/
def frameworkChoices : List String :=
  ["express", "fastify"]

/-- Inquirer's input-prompt loop driven by the project-name validate callback: the
question is re-asked while the callback rejects, so the collector returns the first
attempted input the callback accepts, and returns nothing on a stream of only rejected
attempts. -/
def promptProjectName : List String → Option String
  | [] => none
  | input :: rest =>
    if validateProjectName input = .accepted then some input else promptProjectName rest

/-- Inquirer's list-prompt answer: a selection index into the closed choices list; no
free-text entry exists for a list question. -/
def listPromptAnswer (choices : List String) (selection : Nat) : Option String :=
  choices[selection]?

theorem mem_of_getElem?_eq_some {l : List String} :
    ∀ {i : Nat} {a : String}, l[i]? = some a → a ∈ l := by
  induction l with
  | nil => intro i a h; simp at h
  | cons x xs ih =>
    intro i a h
    cases i with
    | zero =>
      simp at h
      simp [h]
    | succ n =>
      rw [List.getElem?_cons_succ] at h
      exact List.mem_cons_of_mem _ (ih h)

/-- Claim C8: the prompt collector rejects a project-name input that is empty after
trimming and re-requests until a non-empty (post-trim) input is supplied - an accepted
name is always non-empty after trimming, a stream of only empty-after-trim attempts
never produces a name - and the package-manager and framework answers are constrained
to their closed enumerations. -/
theorem c8_prompt_validation (attempts : List String) (s : String)
    (pmSel fwSel : Nat) (pmAns fwAns : String)
    (hname : promptProjectName attempts = some s)
    (hpm : listPromptAnswer packageManagerChoices pmSel = some pmAns)
    (hfw : listPromptAnswer frameworkChoices fwSel = some fwAns) :
    jsTrim s ≠ ""
    ∧ s ∈ attempts
    ∧ ((∀ a ∈ attempts, jsTrim a = "") → False)
    ∧ (pmAns = "npm" ∨ pmAns = "yarn" ∨ pmAns = "pnpm")
    ∧ (fwAns = "express" ∨ fwAns = "fastify") := by
  have hmain : jsTrim s ≠ "" ∧ s ∈ attempts := by
    clear hpm hfw
    induction attempts with
    | nil => simp [promptProjectName] at hname
    | cons a rest ih =>
      rw [promptProjectName] at hname
      by_cases ha : validateProjectName a = .accepted
      · rw [if_pos ha] at hname
        injection hname with hname
        subst hname
        refine ⟨?_, List.mem_cons_self a rest⟩
        intro hempty
        rw [validateProjectName, if_pos hempty] at ha
        cases ha
      · rw [if_neg ha] at hname
        obtain ⟨h1, h2⟩ := ih hname
        exact ⟨h1, List.mem_cons_of_mem a h2⟩
  refine ⟨hmain.1, hmain.2, ?_, ?_, ?_⟩
  · intro hall
    exact hmain.1 (hall s hmain.2)
  · have hmem : pmAns ∈ packageManagerChoices := by
      rw [listPromptAnswer] at hpm
      exact mem_of_getElem?_eq_some hpm
    simpa [packageManagerChoices] using hmem
  · have hmem : fwAns ∈ frameworkChoices := by
      rw [listPromptAnswer] at hfw
      exact mem_of_getElem?_eq_some hfw
    simpa [frameworkChoices] using hmem

/-- Witness for claim C8: the attempt stream with an empty and a blank input followed by
`demo` yields the name `demo`, and the default selections yield `pnpm` and `fastify`. -/
theorem c8_prompt_validation_witness :
    promptProjectName ["", "   ", "demo"] = some "demo"
    ∧ jsTrim "demo" ≠ ""
    ∧ ("pnpm" = "npm" ∨ "pnpm" = "yarn" ∨ "pnpm" = "pnpm")
    ∧ ("fastify" = "express" ∨ "fastify" = "fastify") := by
  have h := c8_prompt_validation ["", "   ", "demo"] "demo" 2 1 "pnpm" "fastify"
    (by decide) (by decide) (by decide)
  exact ⟨by decide, h.1, h.2.2.2.1, h.2.2.2.2⟩

/-- Evaluation of one argument expression `answers.x || cli.flags.x` of the
`createProject` call in `run` (src/cli.js lines 36-40): when the answer is truthy the
fallback is not evaluated; when it is falsy (the empty string) the fallback is
evaluated, and dereferencing the undefined identifier `cli` throws a ReferenceError. -/
def runArg (answer : String) : Except String String :=
  if answer = "" then .error "ReferenceError: cli is not defined" else .ok answer

/-- Arguments with which `run` invokes `createProject` (src/cli.js lines 36-40), the
three argument expressions evaluated left to right, a thrown ReferenceError aborting
the call. -/
def runCreateProjectArgs (projectName pmAns fwAns : String) :
    Except String (String × String × String) := do
  let n ← runArg projectName
  let p ← runArg pmAns
  let f ← runArg fwAns
  return (n, p, f)

/-- Claim C10: under the prompt's validation precondition - accepted project name,
enumeration-constrained manager and framework answers - every `cli.flags` fallback is
short-circuited away, so `createProject` is invoked with exactly the operator's three
answers and the undefined-reference error branch is unreachable. -/
theorem c10_cli_fallback_unreachable (name pmAns fwAns : String)
    (hname : validateProjectName name = .accepted)
    (hpm : pmAns ∈ packageManagerChoices)
    (hfw : fwAns ∈ frameworkChoices) :
    runCreateProjectArgs name pmAns fwAns = .ok (name, pmAns, fwAns) := by
  have hn : name ≠ "" := by
    intro h
    subst h
    exact absurd hname (by decide)
  have hp : pmAns ≠ "" := by
    simp [packageManagerChoices] at hpm
    rcases hpm with h | h | h <;> subst h <;> decide
  have hf : fwAns ≠ "" := by
    simp [frameworkChoices] at hfw
    rcases hfw with h | h <;> subst h <;> decide
  rw [runCreateProjectArgs, runArg, if_neg hn, runArg, if_neg hp, runArg, if_neg hf]
  rfl

/-- Witness for claim C10: the validated answers `demo`, `pnpm`, `fastify` reach
`createProject` unchanged. -/
theorem c10_cli_fallback_unreachable_witness :
    validateProjectName "demo" = .accepted
    ∧ runCreateProjectArgs "demo" "pnpm" "fastify" = .ok ("demo", "pnpm", "fastify") :=
  ⟨by decide, c10_cli_fallback_unreachable "demo" "pnpm" "fastify" (by decide)
    (by decide) (by decide)⟩

/-- Pre-commit hook script content (src/cli.js lines 124-128), parameterised by the
chosen package manager. -/
def huskyHookConfig (pm : PackageManager) : String :=
  "#!/usr/bin/env sh\n    . \"$(dirname -- \"$0\")/_/husky.sh\"\n    \n    "
    ++ pm.toString ++ " lint-staged\n    "

/-- Lint-rule configuration content (src/cli.js lines 130-151). -/
def eslintConfig : String :=
  "\x7b\n\t\t\"env\": \x7b\n\t\t\t\"es2021\": true,\n\t\t\t\"node\": true\n\t\t\x7d,\n\t\t\"extends\": [\n\t\t\t\"eslint:recommended\",\n\t\t\t\"plugin:@typescript-eslint/recommended\",\n\t\t\t\"prettier\"\n\t\t],\n\t\t\"parser\": \"@typescript-eslint/parser\",\n\t\t\"parserOptions\": \x7b\n\t\t\t\"ecmaVersion\": \"latest\",\n\t\t\t\"sourceType\": \"module\",\n\t\t\t\"project\": \"./tsconfig.json\"\n\t\t\x7d,\n\t\t\"plugins\": [\"@typescript-eslint\"],\n\t\t\"ignorePatterns\": [\"node_modules\", \"dist\"],\n\t\t\"rules\": \x7b\n\t\t\t\"@typescript-eslint/no-unused-vars\": \"error\"\n\t\t\x7d\n\t\x7d"

/-- Formatter configuration content (src/cli.js lines 155-159). -/
def prettierConfig : String :=
  "\x7b\n\t\t\"semi\": false,\n\t\t\"singleQuote\": false,\n\t\t\"tabWidth\": 2\n\t\x7d"

/-- Compiler configuration content (src/cli.js lines 163-169). -/
def tsconfigConfig : String :=
  "\x7b\n\t\t\"compilerOptions\": \x7b\n\t\t\t\"target\": \"ES6\",\n\t\t\t\"module\": \"CommonJS\",\n\t\t\t\"strict\": true\n\t\t\x7d\n\t\x7d"

/-- Content written to disk: plain text for the templates and configuration files, the
structured manifest value for the `writeJson` call. -/
inductive FileContent where
  | text : String → FileContent
  | json : PackageJson → FileContent
  deriving DecidableEq

/-- File-system effects performed by the Materializer: `fs.ensureDir` (create-if-absent,
no error when already present), `fs.writeFile`/`fs.writeJson` (create-or-truncate at
the path), and `fs.chmod`. -/
inductive FsAction where
  | ensureDir : String → FsAction
  | writeFile : String → FileContent → FsAction
  | chmod : String → String → FsAction
  deriving DecidableEq

/-- Model of `path.join` for the plain relative segments this generator joins. -/
def joinPath (a b : String) : String :=
  a ++ "/" ++ b

/-- Ordered file-system effect trace of `createProject` (src/cli.js lines 71-284):
ensure the destination directory and its `src` subdirectory, write the server and test
sources, ensure the `.husky` directory, write the three configuration files, write the
hook file and then set it executable, and finally write the manifest. -/
def createProjectTrace (cwd projectName : String) (pm : PackageManager) (fw : Framework)
    (latestVersions : String → Option String) : List FsAction :=
  let dest := joinPath cwd projectName
  let srcDir := joinPath dest "src"
  let huskyDir := joinPath dest ".husky"
  let hookFile := joinPath huskyDir "pre-commit"
  [FsAction.ensureDir dest,
   FsAction.ensureDir srcDir,
   FsAction.writeFile (joinPath srcDir "server.ts") (FileContent.text (serverConfig fw)),
   FsAction.writeFile (joinPath srcDir "server.test.ts") (FileContent.text testServerConfig),
   FsAction.ensureDir huskyDir,
   FsAction.writeFile (joinPath dest ".eslintrc.json") (FileContent.text eslintConfig),
   FsAction.writeFile (joinPath dest ".prettierrc.json") (FileContent.text prettierConfig),
   FsAction.writeFile (joinPath dest "tsconfig.json") (FileContent.text tsconfigConfig),
   FsAction.writeFile hookFile (FileContent.text (huskyHookConfig pm)),
   FsAction.chmod hookFile "755",
   FsAction.writeFile (joinPath dest "package.json")
     (FileContent.json (packageJson projectName pm fw latestVersions))]

/-- Paths of the write actions of a trace, in order. -/
def writePaths (t : List FsAction) : List String :=
  t.filterMap (fun a =>
    match a with
    | .writeFile p _ => some p
    | _ => none)

/-- Paths of the directory-ensuring actions of a trace, in order. -/
def ensureDirPaths (t : List FsAction) : List String :=
  t.filterMap (fun a =>
    match a with
    | .ensureDir d => some d
    | _ => none)

/-- File-system state: existing directories, file contents by path, and file modes by
path. -/
structure FsState where
  dirs : List String
  files : List (String × FileContent)
  modes : List (String × String)

/-- Effect of one action on the file-system state: `ensureDir` adds a missing directory
and leaves an existing one untouched, a write creates or truncates the file at the
path, `chmod` records the mode. -/
def applyAction (a : FsAction) (s : FsState) : FsState :=
  match a with
  | .ensureDir d => { s with dirs := if s.dirs.contains d then s.dirs else s.dirs ++ [d] }
  | .writeFile p c => { s with files := setAssoc s.files p c }
  | .chmod p m => { s with modes := setAssoc s.modes p m }

/-- Sequential execution of a trace against a file-system state. -/
def applyTrace : List FsAction → FsState → FsState
  | [], s => s
  | a :: t, s => applyTrace t (applyAction a s)

/-- First-some choice on options, used to express last-write-wins. -/
def orElseO {β : Type} : Option β → Option β → Option β
  | some v, _ => some v
  | none, b => b

/-- Content of the last write to a path in a trace, when any. -/
def lastWrite : List FsAction → String → Option FileContent
  | [], _ => none
  | a :: t, p =>
    orElseO (lastWrite t p)
      (match a with
       | .writeFile q c => if q = p then some c else none
       | _ => none)

theorem orElseO_none_right {β : Type} (a : Option β) : orElseO a none = a := by
  cases a <;> rfl

theorem lookupKey_files_applyTrace :
    ∀ (t : List FsAction) (s : FsState) (p : String),
      lookupKey p (applyTrace t s).files
        = orElseO (lastWrite t p) (lookupKey p s.files) := by
  intro t
  induction t with
  | nil => intro s p; rfl
  | cons a rest ih =>
    intro s p
    rw [applyTrace, ih (applyAction a s) p]
    cases a with
    | ensureDir d => simp [applyAction, lastWrite, orElseO_none_right]
    | chmod q m => simp [applyAction, lastWrite, orElseO_none_right]
    | writeFile q c =>
      show orElseO (lastWrite rest p) (lookupKey p (setAssoc s.files q c))
        = orElseO (orElseO (lastWrite rest p) (if q = p then some c else none))
          (lookupKey p s.files)
      rw [lookupKey_setAssoc]
      cases lastWrite rest p with
      | some v => rfl
      | none =>
        by_cases hqp : q = p <;> simp [hqp, orElseO]

/-- Claim C6: for every ProjectRequest the Materializer's effect trace ensures exactly
the destination directory, its `src` subdirectory and the `.husky` hook subdirectory
(via create-if-absent operations that do not error when the directory already exists),
writes exactly the fixed seven-file set - server source, test stub, lint config,
formatter config, compiler config, pre-commit hook, manifest - and sets the executable
mode on the hook file immediately after writing it. -/
theorem c6_materializer_file_set (cwd projectName : String) (pm : PackageManager)
    (fw : Framework) (latestVersions : String → Option String) :
    ensureDirPaths (createProjectTrace cwd projectName pm fw latestVersions)
      = [joinPath cwd projectName,
         joinPath (joinPath cwd projectName) "src",
         joinPath (joinPath cwd projectName) ".husky"]
    ∧ writePaths (createProjectTrace cwd projectName pm fw latestVersions)
      = [joinPath (joinPath (joinPath cwd projectName) "src") "server.ts",
         joinPath (joinPath (joinPath cwd projectName) "src") "server.test.ts",
         joinPath (joinPath cwd projectName) ".eslintrc.json",
         joinPath (joinPath cwd projectName) ".prettierrc.json",
         joinPath (joinPath cwd projectName) "tsconfig.json",
         joinPath (joinPath (joinPath cwd projectName) ".husky") "pre-commit",
         joinPath (joinPath cwd projectName) "package.json"]
    ∧ (createProjectTrace cwd projectName pm fw latestVersions).drop 8
      = [FsAction.writeFile
           (joinPath (joinPath (joinPath cwd projectName) ".husky") "pre-commit")
           (FileContent.text (huskyHookConfig pm)),
         FsAction.chmod
           (joinPath (joinPath (joinPath cwd projectName) ".husky") "pre-commit") "755",
         FsAction.writeFile (joinPath (joinPath cwd projectName) "package.json")
           (FileContent.json (packageJson projectName pm fw latestVersions))] :=
  ⟨rfl, rfl, rfl⟩

/-- Claim C7: running the Materializer twice against the same destination with the same
ProjectRequest and the same resolved versions yields the same final file contents as
running it once - every write creates or truncates, so the second run overwrites
rather than accumulates. -/
theorem c7_materializer_idempotent (cwd projectName : String) (pm : PackageManager)
    (fw : Framework) (latestVersions : String → Option String) (s : FsState)
    (p : String) :
    lookupKey p (applyTrace (createProjectTrace cwd projectName pm fw latestVersions)
        (applyTrace (createProjectTrace cwd projectName pm fw latestVersions) s)).files
      = lookupKey p
          (applyTrace (createProjectTrace cwd projectName pm fw latestVersions) s).files := by
  rw [lookupKey_files_applyTrace, lookupKey_files_applyTrace]
  cases lastWrite (createProjectTrace cwd projectName pm fw latestVersions) p <;> rfl
